import Mathlib

/-!
Shallow embedding of the resume-builder backend (`app.py`): the text
wrapper `split_text`, the divider `draw_gradient_line`, the section
header helper `add_section_header`, the layout engine `generate_pdf`,
and the grammar-correction fallback `correct_text`.  Strings are
modelled as `List Char` so that Python's whitespace handling
(`str.split`, `str.strip`) can be reasoned about directly.
-/

/-- Strings are modelled as lists of characters. -/
abbrev Str := List Char

/-- Conversion of a Lean string literal into the character-list model. -/
def str (s : String) : Str := s.toList

/-- Whitespace test used by Python's `str.split()` and `str.strip()`. -/
def isWS (c : Char) : Bool := c.isWhitespace

/-- Accumulator-based tokenizer: `tokenizeAux s acc` scans `s` holding the
characters of the current token in `acc` (reversed); maximal runs of
non-whitespace characters become tokens and whitespace is discarded.
Together with `pySplit` this is Python's `str.split()`. -/
def tokenizeAux : Str → Str → List Str
  | [], acc => if acc = [] then [] else [acc.reverse]
  | c :: cs, acc =>
    if isWS c then
      if acc = [] then tokenizeAux cs [] else acc.reverse :: tokenizeAux cs []
    else
      tokenizeAux cs (c :: acc)

/-- Python's `text.split()`: whitespace-delimited tokens, with empty
fragments discarded. -/
def pySplit (s : Str) : List Str := tokenizeAux s []

/-- Greedy line-filling loop of `split_text` (the `for word in words`
loop plus the final `if current: lines.append(current)` flush),
translated from `app.py` lines 265-276. -/
def splitLoop (w : Nat) : List Str → Str → List Str
  | [], current => if current = [] then [] else [current]
  | word :: rest, current =>
    let test := current ++ (if current = [] then [] else [' ']) ++ word
    if test.length * 5 > w then
      current :: splitLoop w rest word
    else
      splitLoop w rest test

/-- Embedding of `split_text(text, max_width)` (`app.py` lines 259-276). -/
def split_text (text : Str) (max_width : Nat) : List Str :=
  splitLoop max_width (pySplit text) []

/-- Joining a list of lines with a single space, Python's
`" ".join(lines)`. -/
def joinSp (lines : List Str) : Str := List.intercalate [' '] lines

/-! ### Tokenizer lemmas -/

theorem tokenizeAux_all_nonws (word : Str) (h : ∀ c ∈ word, isWS c = false) :
    ∀ acc : Str, acc ≠ [] → tokenizeAux word acc = [acc.reverse ++ word] := by
  induction word with
  | nil =>
    intro acc ha
    simp [tokenizeAux, ha]
  | cons c cs ih =>
    intro acc _
    have hc : isWS c = false := h c (by simp)
    have ih' := ih (fun d hd => h d (List.mem_cons_of_mem _ hd)) (c :: acc) (by simp)
    simp [tokenizeAux, hc, ih']

/-- A nonempty token free of whitespace tokenizes to itself. -/
theorem pySplit_token (word : Str) (hne : word ≠ [])
    (h : ∀ c ∈ word, isWS c = false) : pySplit word = [word] := by
  cases word with
  | nil => exact absurd rfl hne
  | cons c cs =>
    have hc : isWS c = false := h c (by simp)
    have h' := tokenizeAux_all_nonws cs (fun d hd => h d (List.mem_cons_of_mem _ hd))
      [c] (by simp)
    simp [pySplit, tokenizeAux, hc, h']

/-- Scanning past a whitespace character flushes the current token:
tokenizing `s ++ c₀ :: t` is tokenizing `s` followed by tokenizing `t`. -/
theorem tokenizeAux_append_ws (c₀ : Char) (hc₀ : isWS c₀ = true) (t : Str) :
    ∀ (s acc : Str), tokenizeAux (s ++ c₀ :: t) acc = tokenizeAux s acc ++ pySplit t := by
  intro s
  induction s with
  | nil =>
    intro acc
    by_cases ha : acc = []
    · simp [tokenizeAux, hc₀, ha, pySplit]
    · simp [tokenizeAux, hc₀, ha, pySplit]
  | cons c cs ih =>
    intro acc
    by_cases hc : isWS c = true
    · by_cases ha : acc = []
      · simp [tokenizeAux, hc, ha, ih]
      · simp [tokenizeAux, hc, ha, ih]
    · simp [tokenizeAux, hc, ih]

/-- Appending a space and a whitespace-free word to any string appends
exactly one token to its token list. -/
theorem pySplit_append_space (s word : Str) (hne : word ≠ [])
    (h : ∀ c ∈ word, isWS c = false) :
    pySplit (s ++ ' ' :: word) = pySplit s ++ [word] := by
  have hws : isWS ' ' = true := by decide
  rw [pySplit, tokenizeAux_append_ws ' ' hws word s [], pySplit_token word hne h]
  rfl

/-- Every token produced by the tokenizer is nonempty and whitespace-free. -/
theorem tokenizeAux_tokens_wf :
    ∀ (s acc : Str), (∀ c ∈ acc, isWS c = false) →
      ∀ t ∈ tokenizeAux s acc, t ≠ [] ∧ ∀ c ∈ t, isWS c = false := by
  intro s
  induction s with
  | nil =>
    intro acc ha t ht
    by_cases h0 : acc = []
    · simp [tokenizeAux, h0] at ht
    · simp [tokenizeAux, h0] at ht
      subst ht
      constructor
      · simpa using h0
      · intro c hc
        exact ha c (List.mem_reverse.mp hc)
  | cons c cs ih =>
    intro acc ha t ht
    by_cases hc : isWS c = true
    · by_cases h0 : acc = []
      · rw [tokenizeAux] at ht
        simp only [hc, if_true, h0, if_pos rfl] at ht
        exact ih [] (by simp) t ht
      · rw [tokenizeAux] at ht
        simp only [hc, if_true, if_neg h0] at ht
        rcases List.mem_cons.mp ht with h1 | h1
        · subst h1
          constructor
          · simpa using h0
          · intro d hd
            exact ha d (List.mem_reverse.mp hd)
        · exact ih [] (by simp) t h1
    · rw [tokenizeAux] at ht
      simp only [hc, if_false] at ht
      refine ih (c :: acc) ?_ t ht
      intro d hd
      rcases List.mem_cons.mp hd with h1 | h1
      · subst h1; simpa using hc
      · exact ha d h1

theorem pySplit_tokens_wf (s : Str) :
    ∀ t ∈ pySplit s, t ≠ [] ∧ ∀ c ∈ t, isWS c = false :=
  tokenizeAux_tokens_wf s [] (by simp)

/-! ### Token preservation through the greedy wrapper -/

/-- Invariant of the greedy loop: the tokens of the produced lines are
exactly the tokens of the pending line followed by the unprocessed words. -/
theorem splitLoop_flatMap (w : Nat) :
    ∀ (words : List Str) (current : Str),
      (∀ t ∈ words, t ≠ [] ∧ ∀ c ∈ t, isWS c = false) →
      (splitLoop w words current).flatMap pySplit = pySplit current ++ words := by
  intro words
  induction words with
  | nil =>
    intro current _
    by_cases h0 : current = []
    · simp [splitLoop, h0, pySplit, tokenizeAux]
    · simp [splitLoop, h0]
  | cons word rest ih =>
    intro current hwf
    have hword := hwf word (by simp)
    have hrest : ∀ t ∈ rest, t ≠ [] ∧ ∀ c ∈ t, isWS c = false :=
      fun t ht => hwf t (List.mem_cons_of_mem _ ht)
    have hsplit : pySplit (current ++ (if current = [] then [] else [' ']) ++ word)
        = pySplit current ++ [word] := by
      by_cases h0 : current = []
      · subst h0
        simp only [eq_self_iff_true, if_true, List.nil_append]
        rw [pySplit_token word hword.1 hword.2]
        simp [pySplit, tokenizeAux]
      · rw [if_neg h0, List.append_assoc, List.singleton_append]
        exact pySplit_append_space current word hword.1 hword.2
    rw [splitLoop]
    by_cases hov : (current ++ (if current = [] then [] else [' ']) ++ word).length * 5 > w
    · rw [if_pos hov]
      rw [List.flatMap_cons, ih word hrest, pySplit_token word hword.1 hword.2]
      simp
    · rw [if_neg hov]
      rw [ih _ hrest, hsplit]
      simp

/-- Token preservation: the tokens of the lines returned by `split_text`,
concatenated in order, are exactly the tokens of the input. -/
theorem split_text_tokens (text : Str) (w : Nat) :
    (split_text text w).flatMap pySplit = pySplit text := by
  rw [split_text, splitLoop_flatMap w (pySplit text) [] (pySplit_tokens_wf text)]
  rfl

/-! ### Line-budget invariant of the greedy wrapper -/

/-- Invariant of the greedy loop: every produced line either fits the
budget or is a single whitespace-free token. -/
theorem splitLoop_budget (w : Nat) :
    ∀ (words : List Str) (current : Str),
      (∀ t ∈ words, t ≠ [] ∧ ∀ c ∈ t, isWS c = false) →
      (current.length * 5 ≤ w ∨ (current ≠ [] ∧ ∀ c ∈ current, isWS c = false)) →
      ∀ line ∈ splitLoop w words current,
        line.length * 5 ≤ w ∨ (line ≠ [] ∧ ∀ c ∈ line, isWS c = false) := by
  intro words
  induction words with
  | nil =>
    intro current _ hcur line hline
    by_cases h0 : current = []
    · simp [splitLoop, h0] at hline
    · simp [splitLoop, h0] at hline
      subst hline
      exact hcur
  | cons word rest ih =>
    intro current hwf hcur line hline
    have hword := hwf word (by simp)
    have hrest : ∀ t ∈ rest, t ≠ [] ∧ ∀ c ∈ t, isWS c = false :=
      fun t ht => hwf t (List.mem_cons_of_mem _ ht)
    rw [splitLoop] at hline
    by_cases hov : (current ++ (if current = [] then [] else [' ']) ++ word).length * 5 > w
    · rw [if_pos hov] at hline
      rcases List.mem_cons.mp hline with h1 | h1
      · subst h1
        exact hcur
      · exact ih word hrest (Or.inr hword) line h1
    · rw [if_neg hov] at hline
      exact ih _ hrest (Or.inl (Nat.le_of_not_lt hov)) line hline

/-! ### Claims C1, C6 and C10 about `split_text` -/

/-- C1 (amended): for every string `s` and width `w > 0`, the whitespace
tokens of the lines returned by `split_text s w`, concatenated in order,
are exactly the whitespace tokens of `s`: word order and content are
preserved, and no token is dropped or duplicated.  (Joining the lines
with a single space reconstructs the single-space normalisation of `s`,
not necessarily `s` itself.) -/
theorem split_text_token_reconstruction (s : Str) (w : Nat) (hw : 0 < w) :
    (split_text s w).flatMap pySplit = pySplit s :=
  split_text_tokens s w

theorem split_text_token_reconstruction_witness :
    0 < 500 ∧ (split_text (str "hello brave new world") 500).flatMap pySplit
      = pySplit (str "hello brave new world") :=
  ⟨by decide,
    split_text_token_reconstruction (str "hello brave new world") 500 (by decide)⟩

/-- C1 counterexample: joining the lines of `split_text` with a single
space does not reconstruct the input exactly when the input contains
consecutive whitespace: for `s = "a  b"` (two spaces) and `w = 500` the
joined result is `"a b"`, which differs from `s`. -/
theorem split_text_exact_reconstruction_fails :
    joinSp (split_text (str "a  b") 500) ≠ str "a  b" := by decide

/-- C6: for every string `s` and width `w > 0`, every line produced by
`split_text s w` that is not a single token of estimated width exceeding
`w` satisfies `line.length * 5 ≤ w`. -/
theorem split_text_budget (s : Str) (w : Nat) (hw : 0 < w) :
    ∀ line ∈ split_text s w,
      ¬(pySplit line = [line] ∧ line.length * 5 > w) → line.length * 5 ≤ w := by
  intro line hline hexc
  have h := splitLoop_budget w (pySplit s) [] (pySplit_tokens_wf s)
    (Or.inl (by simp)) line hline
  rcases h with h | h
  · exact h
  · by_contra hgt
    exact hexc ⟨pySplit_token line h.1 h.2, Nat.lt_of_not_le hgt⟩

theorem split_text_budget_witness :
    0 < 30 ∧ str "hello" ∈ split_text (str "hello world") 30 ∧
      ¬(pySplit (str "hello") = [str "hello"] ∧ (str "hello").length * 5 > 30) ∧
      (str "hello").length * 5 ≤ 30 :=
  ⟨by decide, by decide, by decide,
    split_text_budget (str "hello world") 30 (by decide) (str "hello")
      (by decide) (by decide)⟩

/-- C10: when the first whitespace token `t` of the input satisfies
`t.length * 5 > w`, `split_text` returns the empty string as its first
line, followed by lines that carry exactly the input's tokens. -/
theorem split_text_overlong_first (s : Str) (w : Nat) (t : Str) (ts : List Str)
    (h : pySplit s = t :: ts) (hlong : t.length * 5 > w) :
    ∃ rest, split_text s w = [] :: rest ∧ rest.flatMap pySplit = t :: ts := by
  have hstep : split_text s w = [] :: splitLoop w ts t := by
    rw [split_text, h, splitLoop]
    simp only [eq_self_iff_true, if_true, List.nil_append]
    rw [if_pos hlong]
  refine ⟨splitLoop w ts t, hstep, ?_⟩
  have hnil : pySplit ([] : Str) = [] := rfl
  have htok := split_text_tokens s w
  rw [hstep, List.flatMap_cons, hnil, List.nil_append, h] at htok
  exact htok

theorem split_text_overlong_first_witness :
    ∃ rest, split_text (str "abcdefghij") 5 = [] :: rest ∧
      rest.flatMap pySplit = [str "abcdefghij"] :=
  split_text_overlong_first (str "abcdefghij") 5 (str "abcdefghij") []
    (by decide) (by decide)

/-! ### Python `str.strip` -/

/-- Python's `str.strip()`: remove leading and trailing whitespace. -/
def strip (s : Str) : Str :=
  ((s.dropWhile fun c => isWS c).reverse.dropWhile fun c => isWS c).reverse

/-- Dropping leading whitespace keeps every non-whitespace character. -/
theorem mem_dropWhile_ws {c : Char} {l : Str} (hmem : c ∈ l) (hc : isWS c = false) :
    c ∈ l.dropWhile fun d => isWS d := by
  have hsplit : (l.takeWhile fun d => isWS d) ++ (l.dropWhile fun d => isWS d) = l :=
    List.takeWhile_append_dropWhile _ l
  rw [← hsplit] at hmem
  rcases List.mem_append.mp hmem with h1 | h1
  · have := List.mem_takeWhile_imp h1
    rw [hc] at this
    exact absurd this (by simp)
  · exact h1

/-- Stripping keeps every non-whitespace character. -/
theorem mem_strip_of_nonws {c : Char} {s : Str} (hmem : c ∈ s) (hc : isWS c = false) :
    c ∈ strip s := by
  have h1 := mem_dropWhile_ws hmem hc
  have h2 : c ∈ (s.dropWhile fun d => isWS d).reverse := List.mem_reverse.mpr h1
  have h3 := mem_dropWhile_ws h2 hc
  exact List.mem_reverse.mpr h3

/-- A string holding a non-whitespace character never strips to empty. -/
theorem strip_ne_nil_of_mem {c : Char} {s : Str} (hmem : c ∈ s) (hc : isWS c = false) :
    strip s ≠ [] :=
  List.ne_nil_of_mem (mem_strip_of_nonws hmem hc)

/-! ### Data model of one rendering request -/

/-- One entry of the `experience` list; every field is optional. -/
structure ExperienceEntry where
  position : Option Str
  company : Option Str
  startDate : Option Str
  endDate : Option Str
  description : Option Str
  deriving DecidableEq, Repr

/-- One entry of the `education` list; every field is optional. -/
structure EducationEntry where
  degree : Option Str
  institution : Option Str
  startDate : Option Str
  endDate : Option Str
  description : Option Str
  deriving DecidableEq, Repr

/-- The `personal` sub-dictionary. -/
structure Personal where
  name : Option Str
  email : Option Str
  phone : Option Str
  address : Option Str
  deriving DecidableEq, Repr

/-- The resume dictionary passed to `generate_pdf`; `Option` models a
possibly missing key, mirroring the `dict.get` defaults of the source. -/
structure Resume where
  personal : Option Personal
  summary : Option Str
  skills : Option (List Str)
  experience : Option (List ExperienceEntry)
  education : Option (List EducationEntry)
  deriving DecidableEq, Repr

/-- Python truthiness of an optional string field (`dict.get` yields
`None` for a missing key; `None` and `""` are both falsy). -/
def truthyS (o : Option Str) : Bool := decide (o.getD [] ≠ [])

/-! ### Canvas primitives and render state -/

/-- Drawing primitives emitted to the ReportLab canvas.  `textRun`
records the font name and size set by the preceding `setFont` together
with the position and text of a `drawString`; `rect` records the divider
rectangle of `draw_gradient_line`, the flag telling whether it used the
gradient path (`renderPDF.draw`) or the solid-fill fallback (`c.rect`).
Colours play no role in any claim and are not recorded. -/
inductive Prim where
  | textRun (font : String) (size : Nat) (x y : Int) (text : Str)
  | rect (x y : Int) (width height : Nat) (gradient : Bool)
  deriving DecidableEq, Repr

/-- Canvas-and-cursor state threaded through `generate_pdf`: the current
cursor `y`, the primitives emitted so far (in emission order), and the
previous cursor values, newest first. -/
structure RState where
  y : Int
  prims : List Prim
  ys : List Int
  deriving DecidableEq, Repr

/-- Cursor update `y -= k`; every decrement in the source subtracts a
non-negative literal or a `draw_gradient_line` return value.  The old
cursor value is recorded in the trace. -/
def decY (k : Nat) (s : RState) : RState :=
  ⟨s.y - (k : Int), s.prims, s.y :: s.ys⟩

/-- Emission of one primitive. -/
def emit (p : Prim) (s : RState) : RState :=
  ⟨s.y, s.prims ++ [p], s.ys⟩

/-- Emission of a batch of primitives. -/
def emitAll (ps : List Prim) (s : RState) : RState :=
  ⟨s.y, s.prims ++ ps, s.ys⟩

/-- A `c.setFont(font, size)` followed by `c.drawString(x, y, text)` at
the current cursor. -/
def drawText (font : String) (size : Nat) (x : Int) (text : Str) (s : RState) : RState :=
  emit (Prim.textRun font size x s.y text) s

/-! ### Divider, section header, and the section string builders -/

/-- Embedding of `draw_gradient_line(c, y, width=500, height=3)`
(`app.py` lines 230-256): one divider rectangle at `(50, y - height)` —
through the gradient path when `GRADIENT_SUPPORTED`, through the solid
teal fallback otherwise — and the vertical space consumed as the second
component. -/
def draw_gradient_line (gradientSupported : Bool) (y : Int) (width height : Nat) :
    List Prim × Nat :=
  if gradientSupported then
    ([Prim.rect 50 (y - (height : Int)) width height true], height + 2)
  else
    ([Prim.rect 50 (y - (height : Int)) width height false], height + 2)

/-- Embedding of the nested helper `add_section_header(title)` (`app.py`
lines 145-152): bold 14pt title at the cursor, a 4-unit gap, the divider
drawn by `draw_gradient_line` at the advanced cursor (with its default
width 500 and height 3), and an 8-unit gap before the content. -/
def add_section_header (g : Bool) (title : Str) (s : RState) : RState :=
  let s1 := drawText "Helvetica-Bold" 14 50 title s
  let s2 := decY 4 s1
  let res := draw_gradient_line g s2.y 500 3
  decY 8 (decY res.2 (emitAll res.1 s2))

/-- Experience title line, `f"{position} at {company}".strip()` with
missing fields read as empty strings (`app.py` line 182). -/
def expTitle (e : ExperienceEntry) : Str :=
  strip ((e.position.getD []) ++ str " at " ++ (e.company.getD []))

/-- Experience date line,
`f"{startDate} – {endDate-defaulted-to-Present}".strip()` (`app.py`
lines 183-185). -/
def expDates (e : ExperienceEntry) : Str :=
  strip ((e.startDate.getD []) ++ str " – " ++ (e.endDate.getD (str "Present")))

/-- Education title line, `f"{degree} at {institution}".strip()`
(`app.py` line 208). -/
def eduTitle (d : EducationEntry) : Str :=
  strip ((d.degree.getD []) ++ str " at " ++ (d.institution.getD []))

/-- Education date line, `f"{startDate} – {endDate}".strip()` with the
end date defaulted to the empty string (`app.py` line 209). -/
def eduDates (d : EducationEntry) : Str :=
  strip ((d.startDate.getD []) ++ str " – " ++ (d.endDate.getD []))

/-- One wrapped body line: `c.drawString(50, y, line); y -= 12` under
font `Helvetica` 10. -/
def bodyLineStep (s : RState) (line : Str) : RState :=
  decY 12 (drawText "Helvetica" 10 50 line s)

/-- One contact line: `c.drawString(50, y, line); y -= 14` under font
`Helvetica` 10. -/
def contactStep (s : RState) (line : Str) : RState :=
  decY 14 (drawText "Helvetica" 10 50 line s)

/-- Contact lines collected by `generate_pdf` (`app.py` lines 129-136). -/
def contactLines (p : Personal) : List Str :=
  (if truthyS p.email then [str "Email: " ++ p.email.getD []] else []) ++
  (if truthyS p.phone then [str "Phone: " ++ p.phone.getD []] else []) ++
  (if truthyS p.address then [str "Address: " ++ p.address.getD []] else [])

/-! ### The layout engine -/

/-- Rendering of one experience entry (`app.py` lines 181-200). -/
def renderExp (s : RState) (e : ExperienceEntry) : RState :=
  let s1 := drawText "Helvetica-Bold" 12 50 (expTitle e) s
  let s2 := decY 14 s1
  let s3 := if expDates e ≠ [] then
      decY 12 (drawText "Helvetica-Oblique" 8 50 (expDates e) s2)
    else s2
  let s4 := if (e.description.getD []) ≠ [] then
      (split_text (e.description.getD []) 500).foldl bodyLineStep s3
    else s3
  decY 8 s4

/-- Rendering of one education entry (`app.py` lines 207-224). -/
def renderEdu (s : RState) (d : EducationEntry) : RState :=
  let s1 := drawText "Helvetica-Bold" 12 50 (eduTitle d) s
  let s2 := decY 14 s1
  let s3 := if eduDates d ≠ [] then
      decY 12 (drawText "Helvetica-Oblique" 8 50 (eduDates d) s2)
    else s2
  let s4 := if (d.description.getD []) ≠ [] then
      (split_text (d.description.getD []) 500).foldl bodyLineStep s3
    else s3
  decY 8 s4

/-- Default for a missing `personal` dictionary. -/
def defaultPersonal : Personal := ⟨none, none, none, none⟩

/-- Name and contact block of `generate_pdf` (`app.py` lines 112-142):
the letter page is 612x792, the cursor starts at `height - 40 = 752`. -/
def pdfInit (r : Resume) : RState :=
  let p := r.personal.getD defaultPersonal
  let s0 := RState.mk (792 - 40) [] []
  let s1 := drawText "Helvetica-Bold" 22 50 (p.name.getD (str "Resume")) s0
  let s2 := decY 28 s1
  decY 12 ((contactLines p).foldl contactStep s2)

/-- Summary section (`app.py` lines 154-163). -/
def renderSummarySec (g : Bool) (r : Resume) (s : RState) : RState :=
  if (r.summary.getD []) ≠ [] then
    decY 12 ((split_text (r.summary.getD []) 500).foldl bodyLineStep
      (add_section_header g (str "Summary") s))
  else s

/-- Skills section (`app.py` lines 165-175): the skill strings joined by
`", "`, wrapped like a summary. -/
def renderSkillsSec (g : Bool) (r : Resume) (s : RState) : RState :=
  if (r.skills.getD []) ≠ [] then
    decY 12 ((split_text (List.intercalate (str ", ") (r.skills.getD [])) 500).foldl
      bodyLineStep (add_section_header g (str "Skills") s))
  else s

/-- Experience section (`app.py` lines 177-201). -/
def renderExperienceSec (g : Bool) (r : Resume) (s : RState) : RState :=
  if (r.experience.getD []) ≠ [] then
    decY 12 ((r.experience.getD []).foldl renderExp
      (add_section_header g (str "Experience") s))
  else s

/-- Education section (`app.py` lines 203-225). -/
def renderEducationSec (g : Bool) (r : Resume) (s : RState) : RState :=
  if (r.education.getD []) ≠ [] then
    decY 12 ((r.education.getD []).foldl renderEdu
      (add_section_header g (str "Education") s))
  else s

/-- Embedding of `generate_pdf(resume, filepath)` (`app.py` lines
106-227): the final canvas state, carrying the emitted primitives and
every cursor value.  `g` models the module-level `GRADIENT_SUPPORTED`
capability flag. -/
def generate_pdf (g : Bool) (r : Resume) : RState :=
  renderEducationSec g r (renderExperienceSec g r (renderSkillsSec g r
    (renderSummarySec g r (pdfInit r))))

/-- Chronological trace of the cursor during one `generate_pdf` call:
its initial value first, its final value last. -/
def cursorTrace (g : Bool) (r : Resume) : List Int :=
  ((generate_pdf g r).y :: (generate_pdf g r).ys).reverse

/-! ### Facts about the entry date and title strings -/

/-- The experience date string always contains the en dash, which
survives stripping, so it is never empty. -/
theorem expDates_ne_nil (e : ExperienceEntry) : expDates e ≠ [] := by
  have hmem : ('–' : Char)
      ∈ (e.startDate.getD []) ++ str " – " ++ (e.endDate.getD (str "Present")) := by
    refine List.mem_append_left _ (List.mem_append_right _ ?_)
    decide
  exact strip_ne_nil_of_mem hmem (by decide)

/-- The education date string always contains the en dash, which
survives stripping, so it is never empty. -/
theorem eduDates_ne_nil (d : EducationEntry) : eduDates d ≠ [] := by
  have hmem : ('–' : Char)
      ∈ (d.startDate.getD []) ++ str " – " ++ (d.endDate.getD []) := by
    refine List.mem_append_left _ (List.mem_append_right _ ?_)
    decide
  exact strip_ne_nil_of_mem hmem (by decide)

/-- The body-line fold only appends primitives. -/
theorem bodyFold_prims_append :
    ∀ (ls : List Str) (s : RState), ∃ q, (ls.foldl bodyLineStep s).prims = s.prims ++ q := by
  intro ls
  induction ls with
  | nil =>
    intro s
    exact ⟨[], by simp⟩
  | cons l ls ih =>
    intro s
    rcases ih (bodyLineStep s l) with ⟨q, hq⟩
    refine ⟨Prim.textRun "Helvetica" 10 50 s.y l :: q, ?_⟩
    rw [List.foldl_cons, hq]
    simp [bodyLineStep, decY, drawText, emit]

/-- The body-line fold never increases the cursor. -/
theorem bodyFold_y_le :
    ∀ (ls : List Str) (s : RState), (ls.foldl bodyLineStep s).y ≤ s.y := by
  intro ls
  induction ls with
  | nil =>
    intro s
    exact le_refl _
  | cons l ls ih =>
    intro s
    refine le_trans (ih (bodyLineStep s l)) ?_
    show s.y - (12 : Int) ≤ s.y
    omega

/-- Emission order of one experience entry: the previous primitives, the
bold title run at the entry cursor, the oblique date run 14 units below,
then the description lines. -/
theorem renderExp_prims (e : ExperienceEntry) (s : RState) :
    ∃ rest : List Prim,
      (renderExp s e).prims
        = s.prims ++ Prim.textRun "Helvetica-Bold" 12 50 s.y (expTitle e)
            :: Prim.textRun "Helvetica-Oblique" 8 50 (s.y - 14) (expDates e) :: rest := by
  simp only [renderExp]
  rw [if_pos (expDates_ne_nil e)]
  by_cases hdesc : (e.description.getD []) ≠ []
  · rw [if_pos hdesc]
    rcases bodyFold_prims_append (split_text (e.description.getD []) 500)
      (decY 12 (drawText "Helvetica-Oblique" 8 50 (expDates e)
        (decY 14 (drawText "Helvetica-Bold" 12 50 (expTitle e) s)))) with ⟨q, hq⟩
    refine ⟨q, ?_⟩
    show (List.foldl bodyLineStep _ _).prims = _
    rw [hq]
    simp [decY, drawText, emit]
  · rw [if_neg hdesc]
    exact ⟨[], by simp [decY, drawText, emit]⟩

/-- The cursor drop of one experience entry is at least
`14 + 12 + 8 = 34`: the title advance, the always-taken date-line
advance, and the inter-entry gap. -/
theorem renderExp_y_le (e : ExperienceEntry) (s : RState) :
    (renderExp s e).y ≤ s.y - 34 := by
  simp only [renderExp]
  rw [if_pos (expDates_ne_nil e)]
  by_cases hdesc : (e.description.getD []) ≠ []
  · rw [if_pos hdesc]
    have h := bodyFold_y_le (split_text (e.description.getD []) 500)
      (decY 12 (drawText "Helvetica-Oblique" 8 50 (expDates e)
        (decY 14 (drawText "Helvetica-Bold" 12 50 (expTitle e) s))))
    show (List.foldl bodyLineStep _ _).y - (8 : Int) ≤ s.y - 34
    have h2 : (decY 12 (drawText "Helvetica-Oblique" 8 50 (expDates e)
        (decY 14 (drawText "Helvetica-Bold" 12 50 (expTitle e) s)))).y
          = s.y - 14 - 12 := rfl
    omega
  · rw [if_neg hdesc]
    show s.y - 14 - 12 - (8 : Int) ≤ s.y - 34
    omega

/-! ### Claims C2, C3 and C7 about the entry lines -/

/-- C2 (amended): the experience date line is rendered unconditionally,
whether or not a date field is present — the formatted string
`f"{startDate} – {endDate-or-Present}".strip()` is never empty, since
the en dash survives stripping — so every experience entry emits the
oblique 8pt date run 14 units below its title and the cursor drop always
includes the 12-unit date-line height (at least 34 = 14 + 12 + 8 per
entry). -/
theorem exp_date_line_always (e : ExperienceEntry) (s : RState) :
    expDates e ≠ [] ∧
      Prim.textRun "Helvetica-Oblique" 8 50 (s.y - 14) (expDates e)
        ∈ (renderExp s e).prims ∧
      (renderExp s e).y ≤ s.y - 34 := by
  refine ⟨expDates_ne_nil e, ?_, renderExp_y_le e s⟩
  rcases renderExp_prims e s with ⟨rest, hp⟩
  rw [hp]
  exact List.mem_append_right _ (by simp)

/-- Entry with every field absent, used as a concrete counterexample. -/
def expNone : ExperienceEntry := ⟨none, none, none, none, none⟩

/-- C2 counterexample: an experience entry with neither `startDate` nor
`endDate` still renders a date line — the formatted string is
`"– Present"`, nonempty after `strip` — and the cursor drops by
34 = 14 + 12 + 8, including the 12-unit date-line height the claim says
should be absent. -/
theorem exp_date_line_rendered_without_dates :
    expDates expNone = str "– Present" ∧
      (renderExp ⟨752, [], []⟩ expNone).y = 752 - 34 ∧
      Prim.textRun "Helvetica-Oblique" 8 50 738 (str "– Present")
        ∈ (renderExp ⟨752, [], []⟩ expNone).prims := by
  decide

/-- C3: with `endDate` absent, an experience entry's date line
substitutes `"Present"` after the en dash while an education entry
substitutes the empty string; this divergence holds for every entry of
each list. -/
theorem endDate_default_divergence (e : ExperienceEntry) (d : EducationEntry)
    (he : e.endDate = none) (hd : d.endDate = none) :
    expDates e = strip ((e.startDate.getD []) ++ str " – Present") ∧
      eduDates d = strip ((d.startDate.getD []) ++ str " – ") := by
  have h1 : str " – " ++ str "Present" = str " – Present" := by decide
  have h2 : str " – " ++ ([] : Str) = str " – " := by simp
  constructor
  · simp only [expDates, he, Option.getD_none, List.append_assoc, h1]
  · simp only [eduDates, hd, Option.getD_none, List.append_assoc, h2]

theorem endDate_default_divergence_witness :
    expDates ⟨none, none, some (str "2020"), none, none⟩
        = strip (str "2020" ++ str " – Present") ∧
      eduDates ⟨none, none, some (str "2019"), none, none⟩
        = strip (str "2019" ++ str " – ") :=
  endDate_default_divergence ⟨none, none, some (str "2020"), none, none⟩
    ⟨none, none, some (str "2019"), none, none⟩ rfl rfl

/-- C7 counterexample: an experience entry with both `position` and
`company` absent renders the title `"at"`, not `" at "` — the template
result is passed through `str.strip()`, which removes the surrounding
spaces. -/
theorem exp_title_strips_spaces :
    expTitle expNone = str "at" ∧ expTitle expNone ≠ str " at " := by
  decide

/-- C7 (amended): the rendered experience title line is the stripped
template `strip("{position} at {company}")` with each missing subfield
substituted by the empty string — the bold title run emitted for an
entry carries exactly `expTitle e` — and an entry with both subfields
missing renders `"at"`, the spaces of `" at "` having been stripped. -/
theorem exp_title_template (e : ExperienceEntry) (s : RState) :
    Prim.textRun "Helvetica-Bold" 12 50 s.y (expTitle e) ∈ (renderExp s e).prims ∧
      (e.position = none → e.company = none → expTitle e = str "at") := by
  constructor
  · rcases renderExp_prims e s with ⟨rest, hp⟩
    rw [hp]
    exact List.mem_append_right _ (by simp)
  · intro hp hc
    simp only [expTitle, hp, hc, Option.getD_none]
    decide

theorem exp_title_template_witness :
    Prim.textRun "Helvetica-Bold" 12 50 752 (expTitle expNone)
        ∈ (renderExp ⟨752, [], []⟩ expNone).prims ∧
      expTitle expNone = str "at" :=
  ⟨(exp_title_template expNone ⟨752, [], []⟩).1,
    (exp_title_template expNone ⟨752, [], []⟩).2 rfl rfl⟩

/-! ### Claims C4 and C5 about the divider and the section header -/

/-- C5: `draw_gradient_line` returns `height + 2` for every capability
mode, cursor position and geometry; in particular at
`y = 100, width = 500, height = 3` it returns `5` in both the gradient
and the solid-fill mode. -/
theorem draw_gradient_line_return (g : Bool) (y : Int) (width height : Nat) :
    (draw_gradient_line g y width height).2 = height + 2 ∧
      (draw_gradient_line true 100 500 3).2 = 5 ∧
      (draw_gradient_line false 100 500 3).2 = 5 :=
  ⟨by cases g <;> rfl, rfl, rfl⟩

/-- C4: for every title, capability mode and starting state, the cursor
decrease of `add_section_header` equals the 4-unit heading gap plus the
`draw_gradient_line` return plus the 8-unit post-divider gap — the
constant 17, independent of the title's length or content. -/
theorem add_section_header_fixed_cost (g : Bool) (title : Str) (s : RState) :
    s.y - (add_section_header g title s).y
      = 4 + ((draw_gradient_line g (s.y - 4) 500 3).2 : Int) + 8 ∧
      s.y - (add_section_header g title s).y = 17 := by
  cases g <;> constructor <;>
    simp [add_section_header, draw_gradient_line, decY, drawText, emit, emitAll] <;>
    omega

/-! ### Claim C8: the cursor only ever decreases -/

/-- Trace invariant: the cursor history (current value first, oldest
last) is non-decreasing into the past — every recorded update was a
decrease — and its oldest entry is the initial cursor `752`. -/
def stateInv (s : RState) : Prop :=
  List.Chain' (fun a b => a ≤ b) (s.y :: s.ys) ∧ (s.y :: s.ys).getLast? = some 752

theorem stateInv_decY (k : Nat) {s : RState} (h : stateInv s) : stateInv (decY k s) := by
  rcases h with ⟨h1, h2⟩
  constructor
  · show List.Chain' _ ((s.y - (k : Int)) :: s.y :: s.ys)
    exact List.chain'_cons.mpr ⟨by omega, h1⟩
  · show ((s.y - (k : Int)) :: s.y :: s.ys).getLast? = some 752
    rw [List.getLast?_cons_cons]
    exact h2

theorem stateInv_emitAll (ps : List Prim) {s : RState} (h : stateInv s) :
    stateInv (emitAll ps s) := h

theorem stateInv_drawText (f : String) (sz : Nat) (x : Int) (t : Str) {s : RState}
    (h : stateInv s) : stateInv (drawText f sz x t s) := h

theorem stateInv_add_section_header (g : Bool) (title : Str) {s : RState}
    (h : stateInv s) : stateInv (add_section_header g title s) := by
  simp only [add_section_header]
  exact stateInv_decY 8 (stateInv_decY _ (stateInv_emitAll _
    (stateInv_decY 4 (stateInv_drawText _ _ _ _ h))))

theorem stateInv_foldl {α : Type} (f : RState → α → RState)
    (hf : ∀ (st : RState) (a : α), stateInv st → stateInv (f st a)) :
    ∀ (l : List α) (st : RState), stateInv st → stateInv (l.foldl f st) := by
  intro l
  induction l with
  | nil =>
    intro st h
    exact h
  | cons a l ih =>
    intro st h
    exact ih _ (hf st a h)

theorem stateInv_bodyLineStep (st : RState) (line : Str) (h : stateInv st) :
    stateInv (bodyLineStep st line) :=
  stateInv_decY 12 (stateInv_drawText _ _ _ _ h)

theorem stateInv_contactStep (st : RState) (line : Str) (h : stateInv st) :
    stateInv (contactStep st line) :=
  stateInv_decY 14 (stateInv_drawText _ _ _ _ h)

theorem stateInv_renderExp (st : RState) (e : ExperienceEntry) (h : stateInv st) :
    stateInv (renderExp st e) := by
  simp only [renderExp]
  apply stateInv_decY
  split
  · apply stateInv_foldl bodyLineStep stateInv_bodyLineStep
    split
    · exact stateInv_decY 12 (stateInv_drawText _ _ _ _
        (stateInv_decY 14 (stateInv_drawText _ _ _ _ h)))
    · exact stateInv_decY 14 (stateInv_drawText _ _ _ _ h)
  · split
    · exact stateInv_decY 12 (stateInv_drawText _ _ _ _
        (stateInv_decY 14 (stateInv_drawText _ _ _ _ h)))
    · exact stateInv_decY 14 (stateInv_drawText _ _ _ _ h)

theorem stateInv_renderEdu (st : RState) (d : EducationEntry) (h : stateInv st) :
    stateInv (renderEdu st d) := by
  simp only [renderEdu]
  apply stateInv_decY
  split
  · apply stateInv_foldl bodyLineStep stateInv_bodyLineStep
    split
    · exact stateInv_decY 12 (stateInv_drawText _ _ _ _
        (stateInv_decY 14 (stateInv_drawText _ _ _ _ h)))
    · exact stateInv_decY 14 (stateInv_drawText _ _ _ _ h)
  · split
    · exact stateInv_decY 12 (stateInv_drawText _ _ _ _
        (stateInv_decY 14 (stateInv_drawText _ _ _ _ h)))
    · exact stateInv_decY 14 (stateInv_drawText _ _ _ _ h)

theorem stateInv_pdfInit (r : Resume) : stateInv (pdfInit r) := by
  simp only [pdfInit]
  apply stateInv_decY
  apply stateInv_foldl contactStep stateInv_contactStep
  apply stateInv_decY
  apply stateInv_drawText
  constructor
  · exact List.chain'_singleton _
  · decide

theorem stateInv_renderSummarySec (g : Bool) (r : Resume) {s : RState}
    (h : stateInv s) : stateInv (renderSummarySec g r s) := by
  simp only [renderSummarySec]
  split
  · exact stateInv_decY 12 (stateInv_foldl bodyLineStep stateInv_bodyLineStep _ _
      (stateInv_add_section_header g _ h))
  · exact h

theorem stateInv_renderSkillsSec (g : Bool) (r : Resume) {s : RState}
    (h : stateInv s) : stateInv (renderSkillsSec g r s) := by
  simp only [renderSkillsSec]
  split
  · exact stateInv_decY 12 (stateInv_foldl bodyLineStep stateInv_bodyLineStep _ _
      (stateInv_add_section_header g _ h))
  · exact h

theorem stateInv_renderExperienceSec (g : Bool) (r : Resume) {s : RState}
    (h : stateInv s) : stateInv (renderExperienceSec g r s) := by
  simp only [renderExperienceSec]
  split
  · exact stateInv_decY 12 (stateInv_foldl renderExp stateInv_renderExp _ _
      (stateInv_add_section_header g _ h))
  · exact h

theorem stateInv_renderEducationSec (g : Bool) (r : Resume) {s : RState}
    (h : stateInv s) : stateInv (renderEducationSec g r s) := by
  simp only [renderEducationSec]
  split
  · exact stateInv_decY 12 (stateInv_foldl renderEdu stateInv_renderEdu _ _
      (stateInv_add_section_header g _ h))
  · exact h

/-- C8: during one `generate_pdf` call the cursor trace starts at
`pageHeight - 40 = 752` and is monotonically non-increasing — every
update to `y` between its initialization and the canvas save subtracts a
non-negative amount, and no other operation writes it. -/
theorem generate_pdf_cursor_monotone (g : Bool) (r : Resume) :
    (cursorTrace g r).head? = some (792 - 40) ∧
      List.Chain' (fun a b => b ≤ a) (cursorTrace g r) := by
  have hinv : stateInv (generate_pdf g r) :=
    stateInv_renderEducationSec g r (stateInv_renderExperienceSec g r
      (stateInv_renderSkillsSec g r (stateInv_renderSummarySec g r (stateInv_pdfInit r))))
  rcases hinv with ⟨h1, h2⟩
  constructor
  · rw [cursorTrace, List.head?_reverse, h2]
    decide
  · rw [cursorTrace]
    exact List.chain'_reverse.mpr h1

/-! ### Claim C9: the grammar-correction fallback -/

/-- One match of the LanguageTool response body: the character offset
and length of the flagged span and the offered replacement values. -/
structure LTMatch where
  offset : Nat
  length : Nat
  replacements : List Str
  deriving DecidableEq, Repr

/-- A completed HTTP exchange: the status code and the parsed `matches`
array of the JSON body. -/
structure LTResponse where
  status : Nat
  matchList : List LTMatch
  deriving DecidableEq, Repr

/-- The form data sent to the LanguageTool endpoint: `text`,
`language="auto"`, and credential fields that are present only when
both `LT_USERNAME` and `LT_API_KEY` are truthy. -/
structure RequestData where
  text : Str
  language : Str
  credentials : Option (Str × Str)
  deriving DecidableEq, Repr

/-- Embedding of the request construction of `correct_text` (`app.py`
lines 72-75). -/
def requestData (username apiKey : Option Str) (text : Str) : RequestData :=
  if truthyS username && truthyS apiKey then
    ⟨text, str "auto", some (username.getD [], apiKey.getD [])⟩
  else
    ⟨text, str "auto", none⟩

/-- Insertion into a list already sorted by descending offset;
`sortDescOffset` models `sorted(matches, key=lambda m: m["offset"],
reverse=True)` (`app.py` line 84). -/
def insertDescOffset (m : LTMatch) : List LTMatch → List LTMatch
  | [] => [m]
  | n :: ns => if n.offset ≤ m.offset then m :: n :: ns else n :: insertDescOffset m ns

/-- Sorting the matches by descending offset. -/
def sortDescOffset (ms : List LTMatch) : List LTMatch :=
  ms.foldr insertDescOffset []

/-- Application of one match: splice the first replacement value over
the flagged span (`app.py` lines 85-89); a match without replacements is
skipped. -/
def applyMatch (corrected : Str) (m : LTMatch) : Str :=
  match m.replacements with
  | [] => corrected
  | r :: _ => corrected.take m.offset ++ r ++ corrected.drop (m.offset + m.length)

/-- Embedding of `correct_text(text)` (`app.py` lines 68-92).  `outcome`
stands for the result of `requests.post` plus JSON parsing:
`Except.error` covers every raised exception (timeout, connection error,
malformed response body), `Except.ok` carries the status code and the
parsed matches.  `username` and `apiKey` are the module-level
`LT_USERNAME` and `LT_API_KEY`; they shape the request data but their
absence never prevents the request. -/
def correct_text (username apiKey : Option Str) (outcome : Except Unit LTResponse)
    (text : Str) : Str :=
  if strip text = [] then text
  else
    let _req := requestData username apiKey text
    match outcome with
    | .error _ => text
    | .ok resp =>
      if resp.status ≠ 200 then text
      else (sortDescOffset resp.matchList).foldl applyMatch text

/-- C9: `correct_text` returns the original string unchanged whenever
the correction attempt fails — on any raised exception (timeout,
malformed response) and on any non-200 HTTP status — and when
`LT_USERNAME` or `LT_API_KEY` is unset the request is still formed,
merely without credentials, rather than failing. -/
theorem correct_text_fallback (username apiKey : Option Str) (text : Str) :
    (∀ e : Unit, correct_text username apiKey (.error e) text = text) ∧
      (∀ resp : LTResponse, resp.status ≠ 200 →
        correct_text username apiKey (.ok resp) text = text) ∧
      (requestData none apiKey text).credentials = none ∧
      (requestData username none text).credentials = none := by
  refine ⟨?_, ?_, ?_, ?_⟩
  · intro e
    by_cases h0 : strip text = []
    · simp [correct_text, h0]
    · simp [correct_text, h0]
  · intro resp hresp
    by_cases h0 : strip text = []
    · simp [correct_text, h0]
    · simp [correct_text, h0, hresp]
  · simp [requestData, truthyS]
  · simp [requestData, truthyS]

theorem correct_text_fallback_witness :
    correct_text none none (Except.error ()) (str "helo wrld") = str "helo wrld" ∧
      correct_text none none (Except.ok ⟨500, []⟩) (str "helo wrld") = str "helo wrld" ∧
      (requestData none none (str "helo wrld")).credentials = none :=
  ⟨(correct_text_fallback none none (str "helo wrld")).1 (),
    (correct_text_fallback none none (str "helo wrld")).2.1 ⟨500, []⟩ (by decide),
    (correct_text_fallback none none (str "helo wrld")).2.2.1⟩
